import Mathlib

/-!
Verification of the region-decomposition search backend (`src/backend/server.py`).

The Python source is shallowly embedded below.  Numeric bounding-box
coordinates (Python floats) are modelled as rationals `ℚ` for the exact
geometry of splitting, and as reals `ℝ` for the covering-circle radius,
which uses `sqrt` and `cos`.  The external HTTP oracles (count oracle,
listing oracle, detail oracle) are modelled as explicit function
parameters; a transient `requests.HTTPError` on a call is the `none`
case of its `Option`-valued result.
-/

namespace TopSpots

/-- A bounding box as built by `get_city_bbox`: the Python dict with keys
`top`, `bottom`, `left`, `right` (degrees).  `top`/`bottom` are latitudes
(north/south), `left`/`right` longitudes (west/east). -/
structure BBox where
  top : ℚ
  bottom : ℚ
  left : ℚ
  right : ℚ
deriving DecidableEq, Repr

/-- Embedding of `split_bbox` (server.py lines 55-63): quadrant children in
source order NW, NE, SW, SE, using the latitude and longitude midpoints. -/
def split_bbox (b : BBox) : List BBox :=
  let mid_lat := (b.top + b.bottom) / 2
  let mid_lng := (b.left + b.right) / 2
  [ ⟨b.top, mid_lat, b.left, mid_lng⟩
  , ⟨b.top, mid_lat, mid_lng, b.right⟩
  , ⟨mid_lat, b.bottom, b.left, mid_lng⟩
  , ⟨mid_lat, b.bottom, mid_lng, b.right⟩ ]

/-- A point (latitude, longitude) lies inside a bounding box. -/
def memB (b : BBox) (p : ℚ × ℚ) : Prop :=
  b.bottom ≤ p.1 ∧ p.1 ≤ b.top ∧ b.left ≤ p.2 ∧ p.2 ≤ b.right

instance (b : BBox) (p : ℚ × ℚ) : Decidable (memB b p) := by
  unfold memB; infer_instance

/-- The `COUNT_LIMIT = 100` cap (server.py line 12).  Counts are `Int`
because Python's `int(data.get("count", "0"))` is an arbitrary integer. -/
def COUNT_LIMIT : Int := 100

/-- The worklist size ceiling checked in the count-failure branch
(server.py line 161). -/
def STACK_CEILING : Nat := 2048

/-- The loop `for n in names: ids.add(n)` (server.py lines 174-175):
fold the returned names into the deduplicating set `ids`. -/
def mergeNames (names : List String) (ids : Finset String) : Finset String :=
  names.foldl (fun s n => insert n s) ids

/-- Result of one iteration of the `while stack` loop in
`collect_place_ids_for_city`, instrumented with call traces: `stack` and
`ids` are the mutable state after the iteration; `countTrace`,
`listTrace` and `splitTrace` record the boxes for which the iteration
called the count oracle, called the listing oracle, and invoked
`split_bbox`, respectively. -/
structure IterOut where
  stack : List BBox
  ids : Finset String
  countTrace : List BBox
  listTrace : List BBox
  splitTrace : List BBox
deriving DecidableEq

/-- One iteration of the `while stack` loop body of
`collect_place_ids_for_city` (server.py lines 156-177), acting on the
already-popped `box` and the remaining `stack`.  The worklist is kept
top-first: Python's `stack.pop()` removes the LAST element, modelled
here as the list head, so Python's `stack.extend(split_bbox(box))` —
which appends NW, NE, SW, SE and therefore pops SE first — is modelled
as prepending `(split_bbox box).reverse`; lengths are unaffected.
`cnt box = none` is a caught `requests.HTTPError` from
`aggregate_count_for_bbox`, and `places box = none` one from
`aggregate_places_for_bbox`. -/
def collectIter (cnt : BBox → Option Int) (places : BBox → Option (List String))
    (box : BBox) (stack : List BBox) (ids : Finset String) : IterOut :=
  match cnt box with
  | none =>
    if stack.length < STACK_CEILING then
      ⟨(split_bbox box).reverse ++ stack, ids, [box], [], [box]⟩
    else
      ⟨stack, ids, [box], [], []⟩
  | some c =>
    if c = 0 then
      ⟨stack, ids, [box], [], []⟩
    else if c ≤ COUNT_LIMIT then
      match places box with
      | none => ⟨(split_bbox box).reverse ++ stack, ids, [box], [box], [box]⟩
      | some names => ⟨stack, mergeNames names ids, [box], [box], []⟩
    else
      ⟨(split_bbox box).reverse ++ stack, ids, [box], [], [box]⟩

/-- Result of running the decomposition loop: the final identifier set
together with the accumulated count-call and listing-call traces. -/
structure LoopOut where
  ids : Finset String
  countTrace : List BBox
  listTrace : List BBox
deriving DecidableEq

/-- The `while stack` loop of `collect_place_ids_for_city` (server.py
lines 155-177), with explicit `fuel` since a non-monotonic oracle can
make the Python loop diverge; every claim proved below holds for every
fuel value.  The stack is top-first (see `collectIter`). -/
def collectLoop (cnt : BBox → Option Int) (places : BBox → Option (List String)) :
    Nat → List BBox → Finset String → LoopOut
  | 0, _, ids => ⟨ids, [], []⟩
  | _ + 1, [], ids => ⟨ids, [], []⟩
  | fuel + 1, box :: stack, ids =>
    let r := collectIter cnt places box stack ids
    let rest := collectLoop cnt places fuel r.stack r.ids
    ⟨rest.ids, r.countTrace ++ rest.countTrace, r.listTrace ++ rest.listTrace⟩

/-- Embedding of `collect_place_ids_for_city` (server.py lines 151-178)
from the geocoded seed box on: seed the stack with the bbox, run the
loop, and return `sorted(ids)`. -/
def collect_place_ids_for_city (cnt : BBox → Option Int)
    (places : BBox → Option (List String)) (fuel : Nat) (bbox : BBox) : List String :=
  ((collectLoop cnt places fuel [bbox] ∅).ids).sort (· ≤ ·)

/-- The JSON body of a successful count-oracle response, e.g.
`{"count":"123"}`; `count = none` models a body with no `count` field. -/
structure CountData where
  count : Option String
deriving DecidableEq

/-- Digit run of a decimal numeral: `none` unless the list is a nonempty
run of decimal digits. -/
def pyDigitsVal : List Char → Option Nat
  | [] => none
  | cs => cs.foldlM (fun acc c => if c.isDigit then some (acc * 10 + (c.toNat - 48)) else none) 0

/-- Model of the Python builtin `int` applied to a string: an optional
sign followed by a nonempty run of decimal digits; `none` models a
raised `ValueError`.  (Surrounding whitespace and underscore separators,
which the real builtin also accepts, are not modelled.) -/
def pyInt (s : String) : Option Int :=
  match s.data with
  | '-' :: cs => (pyDigitsVal cs).map (fun n => -(n : Int))
  | '+' :: cs => (pyDigitsVal cs).map (fun n => (n : Int))
  | cs => (pyDigitsVal cs).map (fun n => (n : Int))

/-- The parsing step of `aggregate_count_for_bbox` (server.py line 94):
`int(data.get("count", "0"))`; `none` is a raised `ValueError`. -/
def aggregate_count_parse (data : CountData) : Option Int :=
  pyInt (data.count.getD "0")

/-- One entry of the `places` array of a listing-oracle response:
optional `name` and `id` fields, each possibly the empty string. -/
structure PlaceEntry where
  name : Option String
  id : Option String
deriving DecidableEq

/-- The JSON body of a successful listing-oracle response;
`places = none` models a body with no `places` field. -/
structure PlacesData where
  places : Option (List PlaceEntry)
deriving DecidableEq

/-- The per-entry step of `aggregate_places_for_bbox` (server.py lines
127-129): `n = p.get("name") or p.get("id")` — Python `or` falls through
on a missing OR empty `name` — then `if n:` keeps only a non-empty
result. -/
def entry_name (p : PlaceEntry) : Option String :=
  let n : Option String :=
    match p.name with
    | some s => if s = "" then p.id else some s
    | none => p.id
  match n with
  | some s => if s = "" then none else some s
  | none => none

/-- The parsing step of `aggregate_places_for_bbox` (server.py lines
125-130): iterate `data.get("places", [])`, keeping `entry_name` of each
entry. -/
def aggregate_places_parse (data : PlacesData) : List String :=
  (data.places.getD []).filterMap entry_name

/-- Embedding of `bbox_center_radius_m` (server.py lines 43-53) over the
reals (Python float arithmetic modelled exactly): returns
`(lat_c, lng_c, max r_m 50)` where `r_m` is the equirectangular
half-diagonal; `math.radians x = x * π / 180`. -/
noncomputable def bbox_center_radius_m (b : BBox) : ℝ × ℝ × ℝ :=
  let lat_c : ℝ := ((b.top : ℝ) + (b.bottom : ℝ)) / 2
  let lng_c : ℝ := ((b.left : ℝ) + (b.right : ℝ)) / 2
  let lat_delta : ℝ := ((b.top : ℝ) - (b.bottom : ℝ)) / 2
  let lng_delta : ℝ := ((b.right : ℝ) - (b.left : ℝ)) / 2
  let m_per_deg_lat : ℝ := 111320
  let m_per_deg_lng : ℝ := 111320 * Real.cos (lat_c * Real.pi / 180)
  let r_m : ℝ := Real.sqrt ((lat_delta * m_per_deg_lat) ^ 2 + (lng_delta * m_per_deg_lng) ^ 2)
  (lat_c, lng_c, max r_m 50)

/-- Spec-side definition, for comparison with `bbox_center_radius_m`:
the analytic half-diagonal distance of a Region under the
equirectangular approximation, longitude scaled by cos of the center
latitude (spec section 3, "Circle"). -/
noncomputable def spec_halfDiagonal (b : BBox) : ℝ :=
  Real.sqrt (((((b.top : ℝ) - (b.bottom : ℝ)) / 2) * 111320) ^ 2 +
    ((((b.right : ℝ) - (b.left : ℝ)) / 2) *
      (111320 * Real.cos ((((b.top : ℝ) + (b.bottom : ℝ)) / 2) * Real.pi / 180))) ^ 2)

/-- A localized-text JSON value as the Places API returns it for
`displayName` / `primaryTypeDisplayName`: either an object with an
optional `text` field, or a bare string. -/
inductive JsonText where
  | obj (text : Option String)
  | str (s : String)
deriving DecidableEq

/-- The `location` object of a raw detail record: optional latitude and
longitude (floats modelled as rationals). -/
structure RawLocation where
  latitude : Option ℚ
  longitude : Option ℚ
deriving DecidableEq

/-- The raw JSON detail record returned by the Places API detail call,
restricted to the fields named in the field mask of `place_details`
(server.py line 137); every field is optional. -/
structure RawPlace where
  id : Option String
  name : Option String
  displayName : Option JsonText
  googleMapsUri : Option String
  primaryType : Option String
  primaryTypeDisplayName : Option JsonText
  types : Option (List String)
  rating : Option ℚ
  userRatingCount : Option Nat
  priceLevel : Option String
  priceRange : Option String
  location : Option RawLocation
deriving DecidableEq

/-- The HTTP response of the GET in `place_details`: a status code and,
for the model, the decoded JSON body. -/
structure HttpResponse where
  status : Nat
  body : RawPlace
deriving DecidableEq

/-- Embedding of `place_details` (server.py lines 133-149) over an
abstract transport `http` mapping a place resource name to its HTTP
response (`none` = the request itself raised, e.g. a timeout).
`Except.error ()` models a raised exception: `resp.raise_for_status()`
raises for any 4xx or 5xx status; a 404 is intercepted first and
returns `None`, modelled as `Except.ok none`. -/
def place_details (http : String → Option HttpResponse) (place_resource_name : String) :
    Except Unit (Option RawPlace) :=
  match http place_resource_name with
  | none => .error ()
  | some resp =>
    if resp.status = 404 then .ok none
    else if 400 ≤ resp.status ∧ resp.status < 600 then .error ()
    else .ok (some resp.body)

/-- The `gps_coordinates` sub-object of a normalized record. -/
structure Gps where
  latitude : ℚ
  longitude : ℚ
deriving DecidableEq

/-- The normalized record appended to `out` by `hydrate_places`
(server.py lines 197-211). -/
structure NormPlace where
  id : Option String
  name : Option String
  resourceName : Option String
  googleMapsUri : Option String
  primaryType : Option String
  primaryTypeDisplayName : Option String
  types : List String
  rating : Option ℚ
  userRatingCount : Option Nat
  priceLevel : Option String
  priceRange : Option String
  gps_coordinates : Option Gps
deriving DecidableEq

/-- Python `d.get("x", {}).get("text") if isinstance(d.get("x"), dict)
else d.get("x")`: a dict yields its optional `text` field, a bare string
yields itself, an absent field yields `None`. -/
def jsonTextFlatten : Option JsonText → Option String
  | none => none
  | some (.obj t) => t
  | some (.str s) => some s

/-- The body of the normalization in `hydrate_places` (server.py lines
189-211): build the minimal shape the frontend reads from one raw detail
record. -/
def normalize_place (data : RawPlace) : NormPlace :=
  let gps_coordinates : Option Gps :=
    match data.location with
    | none => none
    | some loc =>
      match loc.latitude, loc.longitude with
      | some lat, some lng => some ⟨lat, lng⟩
      | _, _ => none
  { id := data.id
    name := jsonTextFlatten data.displayName
    resourceName := data.name
    googleMapsUri := data.googleMapsUri
    primaryType := data.primaryType
    primaryTypeDisplayName := jsonTextFlatten data.primaryTypeDisplayName
    types := data.types.getD []
    rating := data.rating
    userRatingCount := data.userRatingCount
    priceLevel := data.priceLevel
    priceRange := data.priceRange
    gps_coordinates := gps_coordinates }

/-- A raw detail record with every optional field absent: under the
field-per-key encoding (an `Option` field is `none` iff its key is
absent from the JSON object) this is the decoded empty JSON object `{}`
— the one dict value that is falsy in Python. -/
def emptyRawPlace : RawPlace :=
  ⟨none, none, none, none, none, none, none, none, none, none, none, none⟩

/-- Embedding of `hydrate_places` (server.py lines 180-212).  The thread
pool resolves each name via `place_details`; `fut.result()` RE-RAISES an
exception raised inside a worker, so a single failing lookup propagates
out of `hydrate_places` — modelled by folding in the `Except` monad.
`if not data: continue` skips any FALSY result: both `None` (the 404
path) and an empty JSON object `{}` from a 200 response — under the
field-per-key encoding the decoded body is `{}` iff it equals
`emptyRawPlace`.  Otherwise a record is normalized and appended.  The
concurrent completion order is not modelled: the claims proved below
concern only membership and size, which are order-independent. -/
def hydrate_places (http : String → Option HttpResponse) (place_names : List String) :
    Except Unit (List NormPlace) :=
  place_names.foldlM
    (fun out n =>
      match place_details http n with
      | .error e => .error e
      | .ok none => .ok out
      | .ok (some data) =>
        if data = emptyRawPlace then .ok out
        else .ok (out ++ [normalize_place data]))
    []

/-- Spec-side helper: the contribution of one EntityRef to the hydration
output — `none` when its detail lookup returns NotFound or the falsy
empty body, one normalized record when it succeeds with a non-empty
record. -/
def hydrate_entry (http : String → Option HttpResponse) (n : String) : Option NormPlace :=
  match place_details http n with
  | .ok (some data) =>
    if data = emptyRawPlace then none else some (normalize_place data)
  | _ => none

/-- A concrete sample region (used by witnesses): roughly San Diego. -/
def sampleBox : BBox := ⟨33, 32, -118, -116⟩

/-- A fully degenerate (single-point) region. -/
def pointBox : BBox := ⟨0, 0, 0, 0⟩

/-- A concrete non-empty raw detail record (used by witnesses). -/
def sampleRawPlace : RawPlace :=
  { emptyRawPlace with id := some "abc123", name := some "places/abc123" }

/-- A concrete sample transport (used by witnesses): one ref resolves to
HTTP 404, one to HTTP 200 with an empty body, every other ref to HTTP
200 with a non-empty record. -/
def sampleHttp : String → Option HttpResponse := fun n =>
  if n = "places/a" then some ⟨404, emptyRawPlace⟩
  else if n = "places/e" then some ⟨200, emptyRawPlace⟩
  else some ⟨200, sampleRawPlace⟩

section Lemmas

lemma mergeNames_eq_union (names : List String) (ids : Finset String) :
    mergeNames names ids = ids ∪ names.toFinset := by
  induction names generalizing ids with
  | nil => simp [mergeNames]
  | cons n ns ih =>
    simp only [mergeNames, List.foldl_cons, List.toFinset_cons] at *
    rw [ih]
    ext x
    simp [or_comm, or_assoc, or_left_comm]

lemma collectIter_count_fail_low {cnt : BBox → Option Int}
    (places : BBox → Option (List String)) {box : BBox} {stack : List BBox}
    (ids : Finset String) (h : cnt box = none) (hlen : stack.length < STACK_CEILING) :
    collectIter cnt places box stack ids =
      ⟨(split_bbox box).reverse ++ stack, ids, [box], [], [box]⟩ := by
  simp [collectIter, h, hlen]

lemma collectIter_count_fail_high {cnt : BBox → Option Int}
    (places : BBox → Option (List String)) {box : BBox} {stack : List BBox}
    (ids : Finset String) (h : cnt box = none) (hlen : STACK_CEILING ≤ stack.length) :
    collectIter cnt places box stack ids = ⟨stack, ids, [box], [], []⟩ := by
  simp [collectIter, h, Nat.not_lt.mpr hlen]

lemma collectIter_count_zero {cnt : BBox → Option Int}
    (places : BBox → Option (List String)) {box : BBox} (stack : List BBox)
    (ids : Finset String) (h : cnt box = some 0) :
    collectIter cnt places box stack ids = ⟨stack, ids, [box], [], []⟩ := by
  simp [collectIter, h]

lemma collectIter_count_big {cnt : BBox → Option Int}
    (places : BBox → Option (List String)) {box : BBox} (stack : List BBox)
    (ids : Finset String) {c : Int} (h : cnt box = some c) (hc : COUNT_LIMIT < c) :
    collectIter cnt places box stack ids =
      ⟨(split_bbox box).reverse ++ stack, ids, [box], [], [box]⟩ := by
  have h0 : c ≠ 0 := by
    intro rfl0; rw [rfl0] at hc; exact absurd hc (by decide)
  simp [collectIter, h, h0, Int.not_le.mpr hc]

lemma collectIter_list_ok {cnt : BBox → Option Int} {places : BBox → Option (List String)}
    {box : BBox} (stack : List BBox) (ids : Finset String) {c : Int} {names : List String}
    (h : cnt box = some c) (h0 : c ≠ 0) (hc : c ≤ COUNT_LIMIT)
    (hp : places box = some names) :
    collectIter cnt places box stack ids =
      ⟨stack, mergeNames names ids, [box], [box], []⟩ := by
  simp [collectIter, h, h0, hc, hp]

lemma collectIter_list_fail {cnt : BBox → Option Int} {places : BBox → Option (List String)}
    {box : BBox} (stack : List BBox) (ids : Finset String) {c : Int}
    (h : cnt box = some c) (h0 : c ≠ 0) (hc : c ≤ COUNT_LIMIT)
    (hp : places box = none) :
    collectIter cnt places box stack ids =
      ⟨(split_bbox box).reverse ++ stack, ids, [box], [box], [box]⟩ := by
  simp [collectIter, h, h0, hc, hp]

end Lemmas

/-- C1: for every popped region whose count-oracle call succeeds, a
count of 0 drops the region — the stack and the identifier set are
unchanged, no listing call and no split happen; a count strictly above
`COUNT_LIMIT` triggers exactly one split (the split trace is `[box]`)
into four quadrant children that are all pushed onto the worklist, with
no listing call for that region. -/
theorem C1_count_zero_drops_over_cap_splits
    (cnt : BBox → Option Int) (places : BBox → Option (List String))
    (box : BBox) (stack : List BBox) (ids : Finset String) :
    (cnt box = some 0 →
      collectIter cnt places box stack ids = ⟨stack, ids, [box], [], []⟩) ∧
    (∀ c : Int, cnt box = some c → COUNT_LIMIT < c →
      collectIter cnt places box stack ids =
        ⟨(split_bbox box).reverse ++ stack, ids, [box], [], [box]⟩ ∧
      (split_bbox box).length = 4 ∧
      ∀ q ∈ split_bbox box, q ∈ (split_bbox box).reverse ++ stack) := by
  refine ⟨fun h => collectIter_count_zero places stack ids h, fun c h hc => ?_⟩
  refine ⟨collectIter_count_big places stack ids h hc, by simp [split_bbox], ?_⟩
  intro q hq
  simp [hq]

/-- C1 witness: concrete instantiations of both branches. -/
theorem C1_witness :
    collectIter (fun _ => some 0) (fun _ => none) sampleBox [] ∅ =
      ⟨[], ∅, [sampleBox], [], []⟩ ∧
    collectIter (fun _ => some 250) (fun _ => none) sampleBox [] ∅ =
      ⟨(split_bbox sampleBox).reverse ++ [], ∅, [sampleBox], [], [sampleBox]⟩ :=
  ⟨(C1_count_zero_drops_over_cap_splits (fun _ => some 0) (fun _ => none)
      sampleBox [] ∅).1 rfl,
   ((C1_count_zero_drops_over_cap_splits (fun _ => some 250) (fun _ => none)
      sampleBox [] ∅).2 250 rfl (by decide)).1⟩

/-- C2 counterexample: the claim promises that after a listing failure
the region "is never re-queried at the same granularity", but a fully
degenerate (single-point) region splits into four children all equal to
itself, so with count 5 (inside `(0, COUNT_LIMIT]`) and an
always-failing listing oracle the very same region is listing-queried
twice in two loop iterations. -/
theorem C2_counterexample :
    split_bbox pointBox = [pointBox, pointBox, pointBox, pointBox] ∧
    (collectLoop (fun _ => some 5) (fun _ => none) 2 [pointBox] ∅).listTrace =
      [pointBox, pointBox] := by
  constructor
  · simp [split_bbox, pointBox]
  · norm_num [collectLoop, collectIter, split_bbox, pointBox, COUNT_LIMIT, STACK_CEILING]

/-- C2 as amended: for a popped region with `0 < count ≤ COUNT_LIMIT`,
the listing oracle is called exactly once for that region (the listing
trace is `[box]`); on success every returned EntityRef is merged into
the identifier set; on failure the region is split once into four
quadrant children which are pushed onto the worklist, and — provided
the region is not a single point (north ≠ south or east ≠ west) — none
of the children equals the region, so it is not re-queried at the same
granularity. -/
theorem C2_listing_once_merge_or_split
    (cnt : BBox → Option Int) (places : BBox → Option (List String))
    (box : BBox) (stack : List BBox) (ids : Finset String) :
    (∀ (c : Int) (names : List String), cnt box = some c → c ≠ 0 → c ≤ COUNT_LIMIT →
      places box = some names →
      collectIter cnt places box stack ids =
        ⟨stack, mergeNames names ids, [box], [box], []⟩ ∧
      ∀ n ∈ names, n ∈ mergeNames names ids) ∧
    (∀ c : Int, cnt box = some c → c ≠ 0 → c ≤ COUNT_LIMIT → places box = none →
      collectIter cnt places box stack ids =
        ⟨(split_bbox box).reverse ++ stack, ids, [box], [box], [box]⟩ ∧
      (box.bottom ≠ box.top ∨ box.left ≠ box.right → box ∉ split_bbox box)) := by
  constructor
  · intro c names h h0 hc hp
    refine ⟨collectIter_list_ok stack ids h h0 hc hp, fun n hn => ?_⟩
    rw [mergeNames_eq_union]
    simp [List.mem_toFinset.mpr hn]
  · intro c h h0 hc hp
    refine ⟨collectIter_list_fail stack ids h h0 hc hp, fun hne hmem => ?_⟩
    simp only [split_bbox, List.mem_cons, List.not_mem_nil, or_false] at hmem
    rcases hmem with h1 | h1 | h1 | h1
    · have hb := congrArg BBox.bottom h1
      have hr := congrArg BBox.right h1
      dsimp only at hb hr
      rcases hne with h2 | h2
      · exact h2 (by linarith)
      · exact h2 (by linarith)
    · have hb := congrArg BBox.bottom h1
      have hl := congrArg BBox.left h1
      dsimp only at hb hl
      rcases hne with h2 | h2
      · exact h2 (by linarith)
      · exact h2 (by linarith)
    · have ht := congrArg BBox.top h1
      have hr := congrArg BBox.right h1
      dsimp only at ht hr
      rcases hne with h2 | h2
      · exact h2 (by linarith)
      · exact h2 (by linarith)
    · have ht := congrArg BBox.top h1
      have hl := congrArg BBox.left h1
      dsimp only at ht hl
      rcases hne with h2 | h2
      · exact h2 (by linarith)
      · exact h2 (by linarith)

/-- C2 witness: concrete instantiations of the success branch and of
the failure branch on a non-degenerate region. -/
theorem C2_witness :
    (collectIter (fun _ => some 7) (fun _ => some ["places/a", "places/b"]) sampleBox [] ∅ =
      ⟨[], mergeNames ["places/a", "places/b"] ∅, [sampleBox], [sampleBox], []⟩ ∧
      "places/a" ∈ mergeNames ["places/a", "places/b"] (∅ : Finset String)) ∧
    (collectIter (fun _ => some 7) (fun _ => none) sampleBox [] ∅ =
      ⟨(split_bbox sampleBox).reverse ++ [], ∅, [sampleBox], [sampleBox], [sampleBox]⟩ ∧
      sampleBox ∉ split_bbox sampleBox) := by
  constructor
  · have h := (C2_listing_once_merge_or_split (fun _ => some 7)
      (fun _ => some ["places/a", "places/b"]) sampleBox [] ∅).1
      7 ["places/a", "places/b"] rfl (by decide) (by decide) rfl
    exact ⟨h.1, h.2 "places/a" (by simp)⟩
  · have h := (C2_listing_once_merge_or_split (fun _ => some 7)
      (fun _ => none) sampleBox [] ∅).2 7 rfl (by decide) (by decide) rfl
    exact ⟨h.1, h.2 (by norm_num [sampleBox])⟩

/-- C3: when the count-oracle call for a popped region fails with a
(caught) HTTP error, the four quadrant children are pushed onto the
worklist if the remaining worklist is below the 2048 ceiling, and the
region is simply dropped otherwise; in either case nothing is added to
the identifier set, and the failure never escapes: a run in which every
count call fails still returns normally with an unchanged (hence, from
the seed state, empty) identifier set. -/
theorem C3_count_failure_recovered_locally
    (cnt : BBox → Option Int) (places : BBox → Option (List String))
    (box : BBox) (stack : List BBox) (ids : Finset String) :
    (cnt box = none → stack.length < STACK_CEILING →
      collectIter cnt places box stack ids =
        ⟨(split_bbox box).reverse ++ stack, ids, [box], [], [box]⟩) ∧
    (cnt box = none → STACK_CEILING ≤ stack.length →
      collectIter cnt places box stack ids = ⟨stack, ids, [box], [], []⟩) ∧
    (∀ (pl : BBox → Option (List String)) (fuel : Nat) (st : List BBox)
      (is0 : Finset String),
      (collectLoop (fun _ => none) pl fuel st is0).ids = is0) ∧
    (∀ (pl : BBox → Option (List String)) (fuel : Nat) (b : BBox),
      collect_place_ids_for_city (fun _ => none) pl fuel b = []) := by
  have hloop : ∀ (pl : BBox → Option (List String)) (fuel : Nat) (st : List BBox)
      (is0 : Finset String), (collectLoop (fun _ => none) pl fuel st is0).ids = is0 := by
    intro pl fuel
    induction fuel with
    | zero => intro st is0; rfl
    | succ n ih =>
      intro st is0
      cases st with
      | nil => rfl
      | cons b rest =>
        simp only [collectLoop]
        by_cases hlen : rest.length < STACK_CEILING
        · rw [collectIter_count_fail_low pl is0 rfl hlen]
          exact ih _ _
        · rw [collectIter_count_fail_high pl is0 rfl (Nat.not_lt.mp hlen)]
          exact ih _ _
  refine ⟨fun h hlen => collectIter_count_fail_low places ids h hlen,
    fun h hlen => collectIter_count_fail_high places ids h hlen, hloop, ?_⟩
  intro pl fuel b
  simp [collect_place_ids_for_city, hloop]

/-- C3 witness: concrete instantiations of the below-ceiling push, the
at-ceiling drop, and a fully failing run. -/
theorem C3_witness :
    collectIter (fun _ => none) (fun _ => none) sampleBox [] ∅ =
      ⟨(split_bbox sampleBox).reverse ++ [], ∅, [sampleBox], [], [sampleBox]⟩ ∧
    collectIter (fun _ => none) (fun _ => none) sampleBox
        (List.replicate 2048 pointBox) ∅ =
      ⟨List.replicate 2048 pointBox, ∅, [sampleBox], [], []⟩ ∧
    collect_place_ids_for_city (fun _ => none) (fun _ => none) 5 sampleBox = [] := by
  refine ⟨(C3_count_failure_recovered_locally (fun _ => none) (fun _ => none)
      sampleBox [] ∅).1 rfl (by decide), ?_, ?_⟩
  · exact (C3_count_failure_recovered_locally (fun _ => none) (fun _ => none)
      sampleBox (List.replicate 2048 pointBox) ∅).2.1 rfl
      (by rw [List.length_replicate]; decide)
  · exact (C3_count_failure_recovered_locally (fun _ => none) (fun _ => none)
      sampleBox [] ∅).2.2.2 (fun _ => none) 5 sampleBox

section HydrationLemmas

lemma hydrate_fold_ok (http : String → Option HttpResponse) :
    ∀ (names : List String) (acc : List NormPlace),
      (∀ n ∈ names, place_details http n ≠ .error ()) →
      (names.foldlM
        (fun out n =>
          match place_details http n with
          | .error e => .error e
          | .ok none => .ok out
          | .ok (some data) =>
            if data = emptyRawPlace then .ok out
            else .ok (out ++ [normalize_place data]))
        acc : Except Unit (List NormPlace)) =
      .ok (acc ++ names.filterMap (hydrate_entry http)) := by
  intro names
  induction names with
  | nil => intro acc _; rw [List.foldlM_nil, List.filterMap_nil, List.append_nil]; rfl
  | cons n ns ih =>
    intro acc h
    have hn : place_details http n ≠ .error () := h n (List.mem_cons_self n ns)
    have hns : ∀ m ∈ ns, place_details http m ≠ .error () :=
      fun m hm => h m (List.mem_cons_of_mem n hm)
    cases hpd : place_details http n with
    | error e =>
      cases e
      exact absurd hpd hn
    | ok od =>
      cases od with
      | none =>
        simp only [List.foldlM_cons, hpd]
        rw [show ((Except.ok acc : Except Unit (List NormPlace)) >>= fun out =>
          List.foldlM _ out ns) = List.foldlM _ acc ns from rfl]
        rw [ih acc hns]
        simp [hydrate_entry, hpd]
      | some data =>
        by_cases hdata : data = emptyRawPlace
        · simp only [List.foldlM_cons, hpd, if_pos hdata]
          rw [show ((Except.ok acc : Except Unit (List NormPlace)) >>= fun out =>
            List.foldlM _ out ns) = List.foldlM _ acc ns from rfl]
          rw [ih acc hns]
          simp [hydrate_entry, hpd, hdata]
        · simp only [List.foldlM_cons, hpd, if_neg hdata]
          rw [show ((Except.ok (acc ++ [normalize_place data]) :
            Except Unit (List NormPlace)) >>= fun out => List.foldlM _ out ns) =
            List.foldlM _ (acc ++ [normalize_place data]) ns from rfl]
          rw [ih _ hns]
          simp [hydrate_entry, hpd, hdata]

lemma hydrate_fold_error (http : String → Option HttpResponse) :
    ∀ (names : List String) (acc : List NormPlace) (n : String), n ∈ names →
      place_details http n = .error () →
      (names.foldlM
        (fun out n =>
          match place_details http n with
          | .error e => .error e
          | .ok none => .ok out
          | .ok (some data) =>
            if data = emptyRawPlace then .ok out
            else .ok (out ++ [normalize_place data]))
        acc : Except Unit (List NormPlace)) = .error () := by
  intro names
  induction names with
  | nil => intro acc n hn; exact absurd hn (List.not_mem_nil n)
  | cons m ms ih =>
    intro acc n hn hpd
    rcases List.mem_cons.mp hn with rfl | hmem
    · simp only [List.foldlM_cons, hpd]; rfl
    · cases hm : place_details http m with
      | error e => cases e; simp only [List.foldlM_cons, hm]; rfl
      | ok od =>
        cases od with
        | none =>
          simp only [List.foldlM_cons, hm]
          exact ih acc n hmem hpd
        | some data =>
          by_cases hdata : data = emptyRawPlace
          · simp only [List.foldlM_cons, hm, if_pos hdata]
            exact ih _ n hmem hpd
          · simp only [List.foldlM_cons, hm, if_neg hdata]
            exact ih _ n hmem hpd

end HydrationLemmas

/-- C4 counterexample: the claim promises that a per-item lookup failure
is treated like NotFound (dropped without failing the batch), but in the
code `fut.result()` re-raises the worker's exception: for a single ref
whose detail call answers HTTP 500, `hydrate_places` fails as a whole,
while the same ref answering 404 is silently dropped. -/
theorem C4_counterexample :
    hydrate_places (fun _ => some ⟨500, emptyRawPlace⟩) ["places/a"] = .error () ∧
    hydrate_places (fun _ => some ⟨404, emptyRawPlace⟩) ["places/a"] = .ok [] := by
  exact ⟨rfl, rfl⟩

/-- C4 as amended: the hydration output has at most one record per input
ref; when no per-item lookup raises, the output is exactly the list of
normalized records of the refs whose lookup produced a truthy record —
a ref whose lookup returns NotFound (404 → `None`) contributes nothing,
as does a ref whose lookup succeeds with the falsy empty body `{}`, and
a ref whose lookup succeeds with a non-empty record contributes exactly
one record; but a per-item lookup failure is NOT treated like NotFound:
any raising lookup makes the whole `hydrate_places` call fail. -/
theorem C4_hydration_output
    (http : String → Option HttpResponse) (names : List String) :
    (∀ out, hydrate_places http names = .ok out → out.length ≤ names.length) ∧
    ((∀ n ∈ names, place_details http n ≠ .error ()) →
      hydrate_places http names = .ok (names.filterMap (hydrate_entry http))) ∧
    (∀ n, place_details http n = .ok none → hydrate_entry http n = none) ∧
    (∀ n data, place_details http n = .ok (some data) → data ≠ emptyRawPlace →
      hydrate_entry http n = some (normalize_place data)) ∧
    (∀ n, place_details http n = .ok (some emptyRawPlace) →
      hydrate_entry http n = none) ∧
    (∀ n ∈ names, place_details http n = .error () →
      hydrate_places http names = .error ()) := by
  have hok : (∀ n ∈ names, place_details http n ≠ .error ()) →
      hydrate_places http names = .ok (names.filterMap (hydrate_entry http)) := by
    intro h
    have := hydrate_fold_ok http names [] h
    simpa [hydrate_places] using this
  have herr : ∀ n ∈ names, place_details http n = .error () →
      hydrate_places http names = .error () := by
    intro n hn hpd
    exact hydrate_fold_error http names [] n hn hpd
  refine ⟨?_, hok, ?_, ?_, ?_, herr⟩
  · intro out hout
    by_cases hall : ∀ n ∈ names, place_details http n ≠ .error ()
    · rw [hok hall] at hout
      obtain rfl : names.filterMap (hydrate_entry http) = out := by
        simpa using hout
      exact List.length_filterMap_le _ _
    · push_neg at hall
      obtain ⟨n, hn, hpd⟩ := hall
      rw [herr n hn hpd] at hout
      exact absurd hout (by simp)
  · intro n hpd
    simp [hydrate_entry, hpd]
  · intro n data hpd hdata
    simp [hydrate_entry, hpd, hdata]
  · intro n hpd
    simp [hydrate_entry, hpd]

/-- C4 witness: a concrete run in which one ref resolves to 404 and is
dropped, one resolves to the falsy empty body and is dropped, one
resolves to a non-empty record and contributes exactly one output
record, and a separate run with a failing transport fails as a whole. -/
theorem C4_witness :
    (["places/a", "places/b", "places/e"].filterMap (hydrate_entry sampleHttp)).length ≤
      (["places/a", "places/b", "places/e"] : List String).length ∧
    hydrate_places sampleHttp ["places/a", "places/b", "places/e"] =
      .ok (["places/a", "places/b", "places/e"].filterMap (hydrate_entry sampleHttp)) ∧
    hydrate_entry sampleHttp "places/a" = none ∧
    hydrate_entry sampleHttp "places/b" = some (normalize_place sampleRawPlace) ∧
    hydrate_entry sampleHttp "places/e" = none ∧
    hydrate_places (fun _ => none) ["places/c"] = .error () := by
  have H := C4_hydration_output sampleHttp ["places/a", "places/b", "places/e"]
  have hall : ∀ n ∈ (["places/a", "places/b", "places/e"] : List String),
      place_details sampleHttp n ≠ .error () := by
    intro n hn
    simp only [List.mem_cons, List.not_mem_nil, or_false] at hn
    rcases hn with rfl | rfl | rfl <;> simp [place_details, sampleHttp]
  have hok := H.2.1 hall
  refine ⟨H.1 _ hok, hok, H.2.2.1 _ rfl, H.2.2.2.1 _ _ rfl (by decide),
    H.2.2.2.2.1 _ rfl, ?_⟩
  exact (C4_hydration_output (fun _ => none) ["places/c"]).2.2.2.2.2
    "places/c" (by simp) rfl

/-- C5: for a Region with north ≥ south and east ≥ west, splitting
yields exactly four quadrants; their union of bounds equals the parent
bounds (a point is in the parent iff it is in some quadrant); and two
distinct quadrants overlap only on the midpoint boundary lines. -/
theorem C5_split_partition (b : BBox) (hns : b.bottom ≤ b.top) (hwe : b.left ≤ b.right) :
    (split_bbox b).length = 4 ∧
    (∀ p : ℚ × ℚ, memB b p ↔ ∃ q ∈ split_bbox b, memB q p) ∧
    (∀ q1 ∈ split_bbox b, ∀ q2 ∈ split_bbox b, q1 ≠ q2 → ∀ p : ℚ × ℚ,
      memB q1 p → memB q2 p →
      p.1 = (b.top + b.bottom) / 2 ∨ p.2 = (b.left + b.right) / 2) := by
  refine ⟨by simp [split_bbox], ?_, ?_⟩
  · intro p
    simp only [memB]
    constructor
    · rintro ⟨h1, h2, h3, h4⟩
      by_cases hla : (b.top + b.bottom) / 2 ≤ p.1 <;>
        by_cases hlo : (b.left + b.right) / 2 ≤ p.2
      · exact ⟨⟨b.top, (b.top + b.bottom) / 2, (b.left + b.right) / 2, b.right⟩,
          by simp [split_bbox], hla, h2, hlo, h4⟩
      · exact ⟨⟨b.top, (b.top + b.bottom) / 2, b.left, (b.left + b.right) / 2⟩,
          by simp [split_bbox], hla, h2, h3, le_of_not_le hlo⟩
      · exact ⟨⟨(b.top + b.bottom) / 2, b.bottom, (b.left + b.right) / 2, b.right⟩,
          by simp [split_bbox], h1, le_of_not_le hla, hlo, h4⟩
      · exact ⟨⟨(b.top + b.bottom) / 2, b.bottom, b.left, (b.left + b.right) / 2⟩,
          by simp [split_bbox], h1, le_of_not_le hla, h3, le_of_not_le hlo⟩
    · rintro ⟨q, hq, hm⟩
      simp only [split_bbox, List.mem_cons, List.not_mem_nil, or_false] at hq
      rcases hq with rfl | rfl | rfl | rfl <;>
        · dsimp only at hm
          obtain ⟨m1, m2, m3, m4⟩ := hm
          exact ⟨by linarith, by linarith, by linarith, by linarith⟩
  · intro q1 hq1 q2 hq2 hne p hp1 hp2
    simp only [split_bbox, List.mem_cons, List.not_mem_nil, or_false] at hq1 hq2
    simp only [memB] at hp1 hp2
    rcases hq1 with rfl | rfl | rfl | rfl <;> rcases hq2 with rfl | rfl | rfl | rfl <;>
      first
        | exact absurd rfl hne
        | (dsimp only at hp1 hp2
           obtain ⟨a1, a2, a3, a4⟩ := hp1
           obtain ⟨c1, c2, c3, c4⟩ := hp2
           first
             | exact Or.inl (by linarith)
             | exact Or.inr (by linarith))

/-- C5 witness: the partition property at a concrete proper region. -/
theorem C5_witness :
    (split_bbox ⟨1, 0, 0, 2⟩).length = 4 ∧
    (∀ p : ℚ × ℚ, memB ⟨1, 0, 0, 2⟩ p ↔ ∃ q ∈ split_bbox ⟨1, 0, 0, 2⟩, memB q p) ∧
    (∀ q1 ∈ split_bbox ⟨1, 0, 0, 2⟩, ∀ q2 ∈ split_bbox ⟨1, 0, 0, 2⟩, q1 ≠ q2 →
      ∀ p : ℚ × ℚ, memB q1 p → memB q2 p →
      p.1 = ((1 : ℚ) + 0) / 2 ∨ p.2 = ((0 : ℚ) + 2) / 2) :=
  C5_split_partition ⟨1, 0, 0, 2⟩ (by norm_num) (by norm_num)

/-- C6: the covering-circle computation returns the region center and
the equirectangular half-diagonal as radius, floored at 50 m; hence the
radius is at least the analytic half-diagonal and at least 50 m. -/
theorem C6_covering_circle (b : BBox) :
    bbox_center_radius_m b =
      (((b.top : ℝ) + (b.bottom : ℝ)) / 2, ((b.left : ℝ) + (b.right : ℝ)) / 2,
        max (spec_halfDiagonal b) 50) ∧
    spec_halfDiagonal b ≤ (bbox_center_radius_m b).2.2 ∧
    (50 : ℝ) ≤ (bbox_center_radius_m b).2.2 :=
  ⟨rfl, le_max_left _ _, le_max_right _ _⟩

/-- C7: the identifier set never holds duplicates — the final listing
is duplicate-free and sorted for any oracles, fuel and seed — and
insertion is order-insensitive and idempotent, so the result does not
depend on the order or multiplicity in which refs are discovered. -/
theorem C7_collector_dedup_sorted
    (cnt : BBox → Option Int) (places : BBox → Option (List String))
    (fuel : Nat) (bbox : BBox) :
    (collect_place_ids_for_city cnt places fuel bbox).Sorted (· ≤ ·) ∧
    (collect_place_ids_for_city cnt places fuel bbox).Nodup ∧
    (∀ (names1 names2 : List String) (ids : Finset String), names1.Perm names2 →
      mergeNames names1 ids = mergeNames names2 ids) ∧
    (∀ (names : List String) (ids : Finset String),
      mergeNames (names ++ names) ids = mergeNames names ids) := by
  refine ⟨?_, ?_, ?_, ?_⟩
  · simp only [collect_place_ids_for_city]
    exact Finset.sort_sorted _ _
  · simp only [collect_place_ids_for_city]
    exact Finset.sort_nodup _ _
  · intro n1 n2 ids h
    rw [mergeNames_eq_union, mergeNames_eq_union, List.toFinset_eq_of_perm n1 n2 h]
  · intro names ids
    rw [mergeNames_eq_union, mergeNames_eq_union]
    simp

/-- C7 witness: permutation-insensitivity and idempotence at concrete
inputs. -/
theorem C7_witness :
    mergeNames ["places/b", "places/a"] ∅ = mergeNames ["places/a", "places/b"] ∅ ∧
    mergeNames (["places/a"] ++ ["places/a"]) ∅ = mergeNames ["places/a"] ∅ :=
  ⟨(C7_collector_dedup_sorted (fun _ => none) (fun _ => none) 0 pointBox).2.2.1
      _ _ _ (by decide),
   (C7_collector_dedup_sorted (fun _ => none) (fun _ => none) 0 pointBox).2.2.2
      ["places/a"] ∅⟩

/-- C8: for a Region with north ≥ south and east ≥ west, every child
produced by splitting satisfies the same invariant and its bounds lie
within the parent bounds. -/
theorem C8_split_preserves_invariant (b : BBox) (hns : b.bottom ≤ b.top)
    (hwe : b.left ≤ b.right) :
    ∀ q ∈ split_bbox b,
      (q.bottom ≤ q.top ∧ q.left ≤ q.right) ∧
      b.bottom ≤ q.bottom ∧ q.top ≤ b.top ∧ b.left ≤ q.left ∧ q.right ≤ b.right := by
  intro q hq
  simp only [split_bbox, List.mem_cons, List.not_mem_nil, or_false] at hq
  rcases hq with rfl | rfl | rfl | rfl <;>
    refine ⟨⟨?_, ?_⟩, ?_, ?_, ?_, ?_⟩ <;> dsimp only <;> linarith

/-- C8 witness: the invariant-preservation property at the NW child of
a concrete proper region. -/
theorem C8_witness :
    (((⟨2, 1, 0, 2⟩ : BBox).bottom ≤ (⟨2, 1, 0, 2⟩ : BBox).top ∧
      (⟨2, 1, 0, 2⟩ : BBox).left ≤ (⟨2, 1, 0, 2⟩ : BBox).right) ∧
      (⟨2, 0, 0, 4⟩ : BBox).bottom ≤ (⟨2, 1, 0, 2⟩ : BBox).bottom ∧
      (⟨2, 1, 0, 2⟩ : BBox).top ≤ (⟨2, 0, 0, 4⟩ : BBox).top ∧
      (⟨2, 0, 0, 4⟩ : BBox).left ≤ (⟨2, 1, 0, 2⟩ : BBox).left ∧
      (⟨2, 1, 0, 2⟩ : BBox).right ≤ (⟨2, 0, 0, 4⟩ : BBox).right) :=
  C8_split_preserves_invariant ⟨2, 0, 0, 4⟩ (by norm_num) (by norm_num)
    ⟨2, 1, 0, 2⟩ (by norm_num [split_bbox])

/-- C9: the 2048 ceiling is enforced only in the count-failure branch,
where it is checked before the push (at the ceiling the region is
dropped and the worklist stays at 2048); in the count-above-cap and
listing-failure branches the four children are pushed unconditionally,
so the worklist exceeds the ceiling: a push at size 2047 reaches 2051,
and pushes at size 2048 reach 2052. -/
theorem C9_ceiling_only_in_count_failure_branch :
    (collectIter (fun _ => none) (fun _ => none) sampleBox
      (List.replicate 2048 pointBox) ∅).stack.length = 2048 ∧
    (collectIter (fun _ => some 250) (fun _ => none) sampleBox
      (List.replicate 2047 pointBox) ∅).stack.length = 2051 ∧
    (collectIter (fun _ => some 250) (fun _ => none) sampleBox
      (List.replicate 2048 pointBox) ∅).stack.length = 2052 ∧
    (collectIter (fun _ => some 5) (fun _ => none) sampleBox
      (List.replicate 2048 pointBox) ∅).stack.length = 2052 ∧
    STACK_CEILING < 2051 := by
  refine ⟨?_, ?_, ?_, ?_, by decide⟩
  · rw [collectIter_count_fail_high (fun _ => none) ∅ rfl
      (by rw [List.length_replicate]; decide)]
    simp only [List.length_replicate]
  · rw [collectIter_count_big (fun _ => none) _ ∅ rfl (by decide)]
    norm_num [split_bbox]
  · rw [collectIter_count_big (fun _ => none) _ ∅ rfl (by decide)]
    norm_num [split_bbox]
  · rw [collectIter_list_fail _ ∅ rfl (by decide) (by decide) rfl]
    norm_num [split_bbox]

/-- C10: a successful count response with no `count` field parses as
count 0, and a region whose count is 0 is dropped with no listing call
and no split; a successful listing response with no `places` field
yields no EntityRefs; and a listed entry lacking both `name` and `id`
is skipped. -/
theorem C10_parse_defaults :
    aggregate_count_parse ⟨none⟩ = some 0 ∧
    (∀ (cnt : BBox → Option Int) (places : BBox → Option (List String))
      (box : BBox) (stack : List BBox) (ids : Finset String), cnt box = some 0 →
      collectIter cnt places box stack ids = ⟨stack, ids, [box], [], []⟩) ∧
    aggregate_places_parse ⟨none⟩ = [] ∧
    entry_name ⟨none, none⟩ = none ∧
    (∀ entries : List PlaceEntry,
      aggregate_places_parse ⟨some (⟨none, none⟩ :: entries)⟩ =
        aggregate_places_parse ⟨some entries⟩) := by
  refine ⟨by decide,
    fun cnt places box stack ids h => collectIter_count_zero places stack ids h,
    rfl, rfl, ?_⟩
  intro entries
  simp [aggregate_places_parse, List.filterMap_cons, entry_name]

/-- C10 witness: the count-zero drop at a concrete state. -/
theorem C10_witness :
    collectIter (fun _ => some 0) (fun _ => some []) pointBox [sampleBox] ∅ =
      ⟨[sampleBox], ∅, [pointBox], [], []⟩ :=
  C10_parse_defaults.2.1 (fun _ => some 0) (fun _ => some []) pointBox [sampleBox] ∅ rfl

end TopSpots
